import Mathlib

/-!
# Trade analytics engine: verification of the reporting core

Shallow embedding of the trade journal backend:
* `Trade.js` — the trade record schema and its pre-save profit hook;
* `tradeController.js` — `getTradeStats`, `closeTrade`, `bulkCloseTrades`;
* `reportController.js` — the summary and bySymbol facets of `generateReport`,
  and the CSV rendering of `exportTrades`.

Monetary amounts are embedded as rationals (`ℚ`).  JavaScript produces the
IEEE sentinels `Infinity`, `-Infinity` and `NaN` on division by zero and on
arithmetic over `undefined`; those results are represented explicitly by the
`JsNum` type, with division defined exactly as IEEE real division behaves on
the finite operands that occur here.
-/

/-- Trade `status` enum of the schema: `OPEN | CLOSED | CANCELLED`. -/
inductive TStatus where
  | OPEN | CLOSED | CANCELLED
deriving DecidableEq, Repr

/-- Trade `type` enum of the schema (the side): `BUY | SELL`. -/
inductive TType where
  | BUY | SELL
deriving DecidableEq, Repr

/-- A JavaScript number that may be one of the non-finite sentinels. -/
inductive JsNum where
  | fin (q : ℚ)
  | inf
  | negInf
  | nan
deriving DecidableEq, Repr

/-- JS division `a / b` on finite operands: division by zero yields
`Infinity`/`-Infinity`/`NaN` according to the sign of the numerator. -/
def jsDiv (a b : ℚ) : JsNum :=
  if b = 0 then
    if 0 < a then .inf else if a < 0 then .negInf else .nan
  else .fin (a / b)

/-- JS multiplication of a (possibly non-finite) number by the positive
constant `100`. -/
def jsMul100 : JsNum → JsNum
  | .fin q => .fin (q * 100)
  | .inf => .inf
  | .negInf => .negInf
  | .nan => .nan

/-- JS `Math.abs` lifted to `JsNum`. -/
def jsAbs : JsNum → JsNum
  | .fin q => .fin |q|
  | .inf => .inf
  | .negInf => .inf
  | .nan => .nan

/-- Rounding to two decimal places via toFixed(2) and Number(...); the
sentinels Infinity, -Infinity and NaN survive the string round-trip
unchanged. -/
def toFixed2 : JsNum → JsNum
  | .fin q => .fin (((round (q * 100) : ℤ) : ℚ) / 100)
  | .inf => .inf
  | .negInf => .negInf
  | .nan => .nan

/-- The fields of a stored trade document (`Trade.js` schema) that the
analytics read.  `profit` and `profitPercentage` are the persisted
calculated fields, defaulting to `0`; `profitPercentage` is a `JsNum`
because the save hook can store a non-finite value in it.  `id` stands for
the document id; `exitDate` is an epoch timestamp. -/
structure Trade where
  id : ℕ
  symbol : String
  type : TType
  strategy : String
  entryPrice : ℚ
  quantity : ℚ
  exitPrice : Option ℚ
  exitDate : Option ℤ
  status : TStatus
  commission : ℚ
  fees : ℚ
  profit : ℚ
  profitPercentage : JsNum
  notes : String
deriving DecidableEq, Repr

/-- The pre-save middleware of the trade schema: when the document has
status CLOSED and a truthy `exitPrice` (JS truthiness, so `exitPrice`
present *and* non-zero) and the owner has `autoCalculateProfit` true, it
recomputes `profit` from entry/exit value and costs and stores
`profitPercentage = (profit / entryValue) * 100` with no guard on
`entryValue`; otherwise the document is left unchanged. -/
def preSave (autoCalc : Bool) (t : Trade) : Trade :=
  match t.exitPrice with
  | none => t
  | some ep =>
    if t.status = .CLOSED ∧ ep ≠ 0 ∧ autoCalc = true then
      let entryValue := t.entryPrice * t.quantity
      let exitValue := ep * t.quantity
      let totalCosts := t.commission + t.fees
      let profit :=
        if t.type = .BUY then exitValue - entryValue - totalCosts
        else entryValue - exitValue - totalCosts
      { t with profit := profit
               profitPercentage := jsMul100 (jsDiv profit entryValue) }
    else t

/-- The closeTrade handler (tradeController.js): rejects a falsy
`exitPrice`, then runs findOneAndUpdate filtered on status OPEN, setting
the exit fields and status CLOSED (plus `notes` when truthy).  This is a
query update: the document pre-save middleware does not run, so no other
field of the document is written. -/
def closeTrade (t : Trade) (exitPrice : ℚ) (exitDate : Option ℤ)
    (notes : Option String) (now : ℤ) : Option Trade :=
  if exitPrice = 0 then none
  else if t.status = .OPEN then
    some { t with exitPrice := some exitPrice
                  exitDate := some (exitDate.getD now)
                  status := .CLOSED
                  notes := match notes with
                           | some s => if s = "" then t.notes else s
                           | none => t.notes }
  else none

/-- The bulkCloseTrades handler (tradeController.js): rejects an empty id
array and a falsy `exitPrice`, then runs updateMany over the OPEN trades
whose `_id` is in `tradeIds`, setting only the exit fields and the status.
Like `closeTrade` it bypasses the document save middleware. -/
def bulkCloseTrades (tradeIds : List ℕ) (exitPrice : ℚ)
    (exitDate : Option ℤ) (now : ℤ) (ts : List Trade) : Option (List Trade) :=
  if tradeIds = [] then none
  else if exitPrice = 0 then none
  else some (ts.map fun t =>
    if t.id ∈ tradeIds ∧ t.status = .OPEN then
      { t with exitPrice := some exitPrice
               exitDate := some (exitDate.getD now)
               status := .CLOSED }
    else t)

/-- Result document of the getTradeStats group stage, with the explicit
zero defaults the controller substitutes when the aggregation yields no
document.  (`averageHoldTime` averages the virtual `$duration`, which is
absent from aggregation documents, so it is always null; it is omitted
here as no claim reads it.) -/
structure TradeStats where
  totalTrades : ℕ
  openTrades : ℕ
  closedTrades : ℕ
  winningTrades : ℕ
  losingTrades : ℕ
  totalProfit : ℚ
  averageProfit : ℚ
  biggestWin : ℚ
  biggestLoss : ℚ
deriving DecidableEq, Repr

/-- The getTradeStats aggregation (tradeController.js): a single group
over every matched trade, with no `$match` on status.  `winningTrades` and
`losingTrades` count `profit > 0` / `profit < 0` over *all* statuses;
`averageProfit` is the aggregation average of profit, i.e. the mean over all matched
trades.  An empty match produces no group document and the controller
falls back to the all-zero default object. -/
def getTradeStats : List Trade → TradeStats
  | [] =>
    { totalTrades := 0, openTrades := 0, closedTrades := 0
      winningTrades := 0, losingTrades := 0, totalProfit := 0
      averageProfit := 0, biggestWin := 0, biggestLoss := 0 }
  | t :: rest =>
    let ts := t :: rest
    { totalTrades := ts.length
      openTrades := ts.countP (fun x => x.status = .OPEN)
      closedTrades := ts.countP (fun x => x.status = .CLOSED)
      winningTrades := ts.countP (fun x => 0 < x.profit)
      losingTrades := ts.countP (fun x => x.profit < 0)
      totalProfit := (ts.map (·.profit)).sum
      averageProfit := (ts.map (·.profit)).sum / (ts.length : ℚ)
      biggestWin := (rest.map (·.profit)).foldl max t.profit
      biggestLoss := (rest.map (·.profit)).foldl min t.profit }

/-- The win rate `getTradeStats` appends to the group result:
`closedTrades > 0 ? winningTrades / closedTrades * 100 : 0`. -/
def statsWinRate (ts : List Trade) : ℚ :=
  let r := getTradeStats ts
  if 0 < r.closedTrades then (r.winningTrades : ℚ) / (r.closedTrades : ℚ) * 100
  else 0

/-- The overall facet document of the generateReport aggregation
(reportController.js): one group stage over every matched trade, again with
no status condition on the win/loss counts or the profit average.  The
facet array is empty when no trade matches, hence the `Option`. -/
structure Overall where
  totalTrades : ℕ
  openTrades : ℕ
  closedTrades : ℕ
  winningTrades : ℕ
  losingTrades : ℕ
  totalProfit : ℚ
  totalVolume : ℚ
  totalCommissions : ℚ
  averageProfit : ℚ
  biggestWin : ℚ
  biggestLoss : ℚ
deriving DecidableEq, Repr

/-- The head element data.overall[0] in generateReport: `none` models the empty facet
(so that `overall = {}` downstream). -/
def overallFacet : List Trade → Option Overall
  | [] => none
  | t :: rest =>
    let ts := t :: rest
    some
      { totalTrades := ts.length
        openTrades := ts.countP (fun x => x.status = .OPEN)
        closedTrades := ts.countP (fun x => x.status = .CLOSED)
        winningTrades := ts.countP (fun x => 0 < x.profit)
        losingTrades := ts.countP (fun x => x.profit < 0)
        totalProfit := (ts.map (·.profit)).sum
        totalVolume := (ts.map (fun x => x.entryPrice * x.quantity)).sum
        totalCommissions := (ts.map (fun x => x.commission + x.fees)).sum
        averageProfit := (ts.map (·.profit)).sum / (ts.length : ℚ)
        biggestWin := (rest.map (·.profit)).foldl max t.profit
        biggestLoss := (rest.map (·.profit)).foldl min t.profit }

/-- The winRate of generateReport:
`overall.closedTrades > 0 ? (winningTrades / closedTrades) * 100 : 0`.
On the empty facet every comparison against `undefined` is false, so the
guard falls through to `0`. -/
def reportWinRate : Option Overall → ℚ
  | some o =>
    if 0 < o.closedTrades then (o.winningTrades : ℚ) / (o.closedTrades : ℚ) * 100
    else 0
  | none => 0

/-- The profitFactor of generateReport:
`losingTrades > 0 ? Math.abs(totalProfit / (biggestLoss * losingTrades))
                  : totalProfit > 0 ? Infinity : 0`. -/
def reportProfitFactor : Option Overall → JsNum
  | some o =>
    if 0 < o.losingTrades then
      jsAbs (jsDiv o.totalProfit (o.biggestLoss * (o.losingTrades : ℚ)))
    else if 0 < o.totalProfit then .inf else .fin 0
  | none => .fin 0

/-- The roi of generateReport:
`totalVolume > 0 ? (totalProfit / totalVolume) * 100 : 0`. -/
def reportRoi : Option Overall → ℚ
  | some o =>
    if 0 < o.totalVolume then o.totalProfit / o.totalVolume * 100 else 0
  | none => 0

/-- The summary object of the generateReport response: the spread of the
(possibly empty) `overall` document — absent fields modelled as `none` —
plus the derived ratios rounded with `.toFixed(2)`, and
`netProfit = overall.totalProfit - overall.totalCommissions`, which on the
empty facet is `undefined - undefined = NaN`. -/
structure Summary where
  totalTrades : Option ℕ
  openTrades : Option ℕ
  closedTrades : Option ℕ
  winningTrades : Option ℕ
  losingTrades : Option ℕ
  totalProfit : Option ℚ
  totalVolume : Option ℚ
  totalCommissions : Option ℚ
  averageProfit : Option ℚ
  biggestWin : Option ℚ
  biggestLoss : Option ℚ
  winRate : JsNum
  profitFactor : JsNum
  roi : JsNum
  netProfit : JsNum
deriving DecidableEq, Repr

/-- The summary `generateReport` responds with, as a function of the
matched trade collection. -/
def reportSummary (ts : List Trade) : Summary :=
  let o? := overallFacet ts
  { totalTrades := o?.map (·.totalTrades)
    openTrades := o?.map (·.openTrades)
    closedTrades := o?.map (·.closedTrades)
    winningTrades := o?.map (·.winningTrades)
    losingTrades := o?.map (·.losingTrades)
    totalProfit := o?.map (·.totalProfit)
    totalVolume := o?.map (·.totalVolume)
    totalCommissions := o?.map (·.totalCommissions)
    averageProfit := o?.map (·.averageProfit)
    biggestWin := o?.map (·.biggestWin)
    biggestLoss := o?.map (·.biggestLoss)
    winRate := toFixed2 (.fin (reportWinRate o?))
    profitFactor := toFixed2 (reportProfitFactor o?)
    roi := toFixed2 (.fin (reportRoi o?))
    netProfit := match o? with
                 | some o => .fin (o.totalProfit - o.totalCommissions)
                 | none => .nan }

/-- The distinct symbols of a collection: the `_id` keys produced by
grouping on the symbol field. -/
def symbolsOf (ts : List Trade) : List String :=
  (ts.map (·.symbol)).dedup

/-- The totalProfit of a symbol group: the profit sum of the trades (of any
status) carrying that symbol. -/
def symProfit (ts : List Trade) (s : String) : ℚ :=
  ((ts.filter (fun t => t.symbol = s)).map (·.profit)).sum

/-- The groups produced by the group stage of the bySymbol facet, as
(symbol, totalProfit) pairs. -/
def bySymbolGroups (ts : List Trade) : List (String × ℚ) :=
  (symbolsOf ts).map (fun s => (s, symProfit ts s))

/-- Insertion step of the sort stage on descending totalProfit. -/
def insertDesc (x : String × ℚ) : List (String × ℚ) → List (String × ℚ)
  | [] => [x]
  | y :: ys => if y.2 ≤ x.2 then x :: y :: ys else y :: insertDesc x ys

/-- The sort stage: the groups ordered by descending `totalProfit`
(tie order unspecified by MongoDB; this sort fixes one). -/
def sortDesc : List (String × ℚ) → List (String × ℚ)
  | [] => []
  | x :: xs => insertDesc x (sortDesc xs)

/-- The full `bySymbol` facet of `generateReport`: group by symbol, sort by
descending `totalProfit`, then `$limit: 10`. -/
def bySymbolFacet (ts : List Trade) : List (String × ℚ) :=
  (sortDesc (bySymbolGroups ts)).take 10

/-! ## The CSV exporter (`exportTrades`, `reportController.js`)

The exporter joins eleven per-trade fields with `','` (`Array.join(',')`)
and joins rows with newlines.  The round-trip claims concern the string
structure of one row, so the numeric trade fields are embedded as integers
(for which the JavaScript base-10 toString is modelled exactly by
`natRender`/`intRender`) and dates as their already-rendered `YYYY-MM-DD`
strings. -/

/-- The JS array join with a separator, on character lists. -/
def intercalateChars (sep : Char) : List (List Char) → List Char
  | [] => []
  | [f] => f
  | f :: g :: fs => f ++ sep :: intercalateChars sep (g :: fs)

/-- Prepend a character to the first field of a split result. -/
def consFirst (c : Char) : List (List Char) → List (List Char)
  | [] => [[c]]
  | f :: rest => (c :: f) :: rest

/-- Split a character list at every occurrence of `sep` (the parse
direction of the round-trip; a plain CSV field splitter). -/
def splitChars (sep : Char) : List Char → List (List Char)
  | [] => [[]]
  | c :: cs =>
    if c = sep then [] :: splitChars sep cs else consFirst c (splitChars sep cs)

/-- The decimal digit character of value `d` (codepoint 48 + d). -/
def digitChar (d : ℕ) : Char := Char.ofNat (48 + d)

/-- Value of a decimal digit character, and `none` on everything else. -/
def digitVal? (c : Char) : Option ℕ :=
  if c.isDigit then some (c.toNat - 48) else none

/-- Fuelled base-10 rendering of a positive natural (most significant digit
first); `fuel ≥ n` suffices since a number has at most `n` digits. -/
def natRenderAux : ℕ → ℕ → List Char
  | 0, _ => []
  | _ + 1, 0 => []
  | fuel + 1, n + 1 =>
    natRenderAux fuel ((n + 1) / 10) ++ [digitChar ((n + 1) % 10)]

/-- JavaScript `Number.prototype.toString` on a non-negative integer. -/
def natRender (n : ℕ) : List Char :=
  if n = 0 then ['0'] else natRenderAux n n

/-- JavaScript `toString` on an integer-valued number. -/
def intRender (z : ℤ) : List Char :=
  if z < 0 then '-' :: natRender z.natAbs else natRender z.natAbs

/-- Read a character list as a list of decimal digit values, failing on any
non-digit. -/
def digitsParse : List Char → Option (List ℕ)
  | [] => some []
  | c :: cs => (digitVal? c).bind (fun d => (digitsParse cs).map (fun ds => d :: ds))

/-- Parse a non-empty all-digit character list as a natural number. -/
def natParse (cs : List Char) : Option ℕ :=
  if cs = [] then none
  else (digitsParse cs).map (·.foldl (fun a d => a * 10 + d) 0)

/-- Parse an optionally `'-'`-signed decimal integer. -/
def intParse : List Char → Option ℤ
  | [] => none
  | c :: rest =>
    if c = '-' then (natParse rest).map (fun n => -(n : ℤ))
    else (natParse (c :: rest)).map (fun n => (n : ℤ))

/-- The comma substitution applied to notes: every comma in the free text is
substituted with a semicolon. -/
def stripCommas (s : String) : String :=
  String.mk (s.data.map (fun c => if c = ',' then ';' else c))

/-- Rendering of the `type` enum (the CSV `Type` column). -/
def typeStr : TType → String
  | .BUY => "BUY"
  | .SELL => "SELL"

/-- Rendering of the `status` enum (the CSV `Status` column). -/
def statusStr : TStatus → String
  | .OPEN => "OPEN"
  | .CLOSED => "CLOSED"
  | .CANCELLED => "CANCELLED"

/-- The trade fields `exportTrades` reads, with numerics integer-valued and
dates as their rendered ISO-date (YYYY-MM-DD) strings. -/
structure ExportRow where
  symbol : String
  type : TType
  strategy : String
  entryDate : String
  entryPrice : ℤ
  exitDate : Option String
  exitPrice : Option ℤ
  quantity : ℤ
  profit : ℤ
  status : TStatus
  notes : String
deriving DecidableEq, Repr

/-- The CSV Exit Price field, rendered by JS truthiness — the empty string
both when `exitPrice` is absent and when it is 0 (falsy). -/
def exitPriceField : Option ℤ → List Char
  | none => []
  | some z => if z = 0 then [] else intRender z

/-- One CSV data row of `exportTrades`: the eleven fields in the fixed
column order `Symbol,Type,Strategy,Entry Date,Entry Price,Exit Date,
Exit Price,Quantity,Profit,Status,Notes`, joined with `','`.  Only `notes`
receives the comma substitution. -/
def renderRow (t : ExportRow) : String :=
  String.mk (intercalateChars ','
    [ t.symbol.data
    , (typeStr t.type).data
    , t.strategy.data
    , t.entryDate.data
    , intRender t.entryPrice
    , (t.exitDate.getD "").data
    , exitPriceField t.exitPrice
    , intRender t.quantity
    , intRender t.profit
    , (statusStr t.status).data
    , (stripCommas t.notes).data ])

/-- The six fields the round-trip claim says a parser recovers from a row
by the fixed column order. -/
structure ParsedCore where
  symbol : String
  type : TType
  entryPrice : ℤ
  exitPrice : Option ℤ
  quantity : ℤ
  status : TStatus
deriving DecidableEq, Repr

/-- Parse the `Type` column. -/
def parseType (s : String) : Option TType :=
  if s = "BUY" then some .BUY
  else if s = "SELL" then some .SELL
  else none

/-- Parse the `Status` column. -/
def parseStatus (s : String) : Option TStatus :=
  if s = "OPEN" then some .OPEN
  else if s = "CLOSED" then some .CLOSED
  else if s = "CANCELLED" then some .CANCELLED
  else none

/-- Parse the `Exit Price` column: an empty field is an absent exit price. -/
def parseExit (cs : List Char) : Option (Option ℤ) :=
  if cs = [] then some none else (intParse cs).map some

/-- Parse one CSV row back by the fixed column order: split on `','`,
require exactly eleven fields, and decode the six core columns. -/
def parseRow (s : String) : Option ParsedCore :=
  match splitChars ',' s.data with
  | [sy, ty, _st, _ed, ep, _xd, xp, q, _pf, stt, _nt] =>
    match parseType (String.mk ty), intParse ep, parseExit xp,
          intParse q, parseStatus (String.mk stt) with
    | some ty', some ep', some xp', some q', some stt' =>
      some { symbol := String.mk sy, type := ty', entryPrice := ep'
             exitPrice := xp', quantity := q', status := stt' }
    | _, _, _, _, _ => none
  | _ => none

/-! ## Concrete example records -/

/-- A minimal stored trade document differing from the schema defaults only
in symbol, status and the persisted `profit` field, for concrete
aggregation inputs. -/
def exTrade (sym : String) (st : TStatus) (p : ℚ) : Trade :=
  { id := 0, symbol := sym, type := .BUY, strategy := "", entryPrice := 1
    quantity := 1, exitPrice := none, exitDate := none, status := st
    commission := 0, fees := 0, profit := p, profitPercentage := .fin 0
    notes := "" }

/-- An OPEN trade carrying positive stored profit. -/
def c4List : List Trade := [exTrade "AAPL" .OPEN 5]

/-- A collection on which the amended hypothesis of C4 holds. -/
def c4wList : List Trade := [exTrade "AAPL" .CLOSED 5, exTrade "TSLA" .OPEN 0]

/-- A closed trade with profit 10 next to an open trade with profit 0. -/
def c5List : List Trade := [exTrade "AAPL" .CLOSED 10, exTrade "TSLA" .OPEN 0]

/-- A winning OPEN trade alongside a winning CLOSED trade. -/
def c6List : List Trade := [exTrade "AAPL" .CLOSED 5, exTrade "TSLA" .OPEN 5]

/-- A single winning closed trade satisfying the amended hypothesis of C6. -/
def c6wList : List Trade := [exTrade "AAPL" .CLOSED 5]

/-- The scenario given in the spec: four closed trades with profits
[+100, −40, +25, −10]. -/
def c1List : List Trade :=
  [exTrade "AAPL" .CLOSED 100, exTrade "TSLA" .CLOSED (-40),
   exTrade "MSFT" .CLOSED 25, exTrade "NVDA" .CLOSED (-10)]

/-- A closed BUY trade whose exit price is the legitimate value 0
(schema minimum `min: 0`): JS truthiness makes the hook skip it. -/
def c2List : Trade :=
  { id := 0, symbol := "AAPL", type := .BUY, strategy := "", entryPrice := 10
    quantity := 1, exitPrice := some 0, exitDate := some 0, status := .CLOSED
    commission := 0, fees := 0, profit := 0, profitPercentage := .fin 0
    notes := "" }

/-- The scenario trade given in the spec: BUY, entry 150.50 × 100, exit 158.75,
commission 1.50, fees 0.50. -/
def c2wTrade : Trade :=
  { id := 0, symbol := "AAPL", type := .BUY, strategy := "", entryPrice := 301/2
    quantity := 100, exitPrice := some (635/4), exitDate := some 0
    status := .CLOSED, commission := 3/2, fees := 1/2, profit := 0
    profitPercentage := .fin 0, notes := "" }

/-- A closed BUY trade with entry price 0 (allowed by the schema
`min: 0`) and exit price 5. -/
def c3Trade : Trade :=
  { id := 0, symbol := "AAPL", type := .BUY, strategy := "", entryPrice := 0
    quantity := 1, exitPrice := some 5, exitDate := some 0, status := .CLOSED
    commission := 0, fees := 0, profit := 0, profitPercentage := .fin 0
    notes := "" }

/-- An open trade with a non-trivial stored profit, for the witness. -/
def c10Trade : Trade :=
  { id := 1, symbol := "AAPL", type := .BUY, strategy := "", entryPrice := 10
    quantity := 2, exitPrice := none, exitDate := none, status := .OPEN
    commission := 1, fees := 1, profit := 7, profitPercentage := .fin 35
    notes := "" }

/-- The document `closeTrade c10Trade 5 …` produces. -/
def c10Closed : Trade :=
  { c10Trade with exitPrice := some 5, exitDate := some 0, status := .CLOSED }

/-- Eleven closed trades with eleven distinct symbols, each with profit 1. -/
def c7List : List Trade :=
  [exTrade "S01" .CLOSED 1, exTrade "S02" .CLOSED 1, exTrade "S03" .CLOSED 1,
   exTrade "S04" .CLOSED 1, exTrade "S05" .CLOSED 1, exTrade "S06" .CLOSED 1,
   exTrade "S07" .CLOSED 1, exTrade "S08" .CLOSED 1, exTrade "S09" .CLOSED 1,
   exTrade "S10" .CLOSED 1, exTrade "S11" .CLOSED 1]

/-- Two trades on distinct symbols, for the witness. -/
def c7wList : List Trade := [exTrade "AAPL" .CLOSED 3, exTrade "TSLA" .CLOSED (-1)]

/-- A closed trade exported with exit price 0. -/
def c8Trade : ExportRow :=
  { symbol := "AAPL", type := .BUY, strategy := "swing"
    entryDate := "2024-01-02", entryPrice := 10
    exitDate := some "2024-01-05", exitPrice := some 0, quantity := 1
    profit := 0, status := .CLOSED, notes := "fast exit, stopped" }

/-- A well-behaved export row for the witness. -/
def c8wTrade : ExportRow :=
  { symbol := "TSLA", type := .SELL, strategy := "scalp"
    entryDate := "2024-02-01", entryPrice := 250
    exitDate := some "2024-02-03", exitPrice := some 241, quantity := 3
    profit := 27, status := .CLOSED, notes := "good, clean" }

/-! ## Counting lemmas for the aggregation stage -/

/-- When every trade with non-zero profit is closed, the two signed-profit
counts together stay below the closed count. -/
lemma countP_signs_le_closed (l : List Trade)
    (h : ∀ t ∈ l, t.profit ≠ 0 → t.status = .CLOSED) :
    l.countP (fun x => 0 < x.profit) + l.countP (fun x => x.profit < 0) ≤
      l.countP (fun x => x.status = .CLOSED) := by
  induction l with
  | nil => simp
  | cons t rest ih =>
    have ht := h t (List.mem_cons_self t rest)
    have hle := ih (fun x hx => h x (List.mem_cons_of_mem t hx))
    simp only [List.countP_cons, decide_eq_true_eq]
    rcases lt_trichotomy t.profit 0 with hp | hp | hp
    · have hc : t.status = TStatus.CLOSED := ht (ne_of_lt hp)
      rw [if_neg (by exact absurd · (not_lt_of_lt hp)), if_pos hp, if_pos hc]
      omega
    · rw [if_neg (by rw [hp]; exact lt_irrefl 0), if_neg (by rw [hp]; exact lt_irrefl 0)]
      split <;> omega
    · have hc : t.status = TStatus.CLOSED := ht (ne_of_gt hp)
      rw [if_pos hp, if_neg (by exact absurd · (not_lt_of_gt hp)), if_pos hc]
      omega

/-- When every trade with positive profit is closed, the winning count is
bounded by the closed count. -/
lemma countP_pos_le_closed (l : List Trade)
    (h : ∀ t ∈ l, 0 < t.profit → t.status = .CLOSED) :
    l.countP (fun x => 0 < x.profit) ≤ l.countP (fun x => x.status = .CLOSED) := by
  refine List.countP_mono_left (fun a ha => ?_)
  simp only [decide_eq_true_eq]
  exact h a ha

/-! ## C4 — winning/losing counts vs closed count -/

/-- C4 is false as stated: the `$group` stage counts `profit > 0` /
`profit < 0` over trades of every status, so a single OPEN trade with
profit 5 yields `winningTrades = 1 > 0 = closedTrades`. -/
theorem C4_counterexample :
    (getTradeStats c4List).winningTrades = 1 ∧
    (getTradeStats c4List).losingTrades = 0 ∧
    (getTradeStats c4List).closedTrades = 0 ∧
    ¬((getTradeStats c4List).winningTrades + (getTradeStats c4List).losingTrades ≤
        (getTradeStats c4List).closedTrades) := by
  refine ⟨by decide, by decide, by decide, by decide⟩

/-- C4 (amended): `winningTrades` and `losingTrades` count trades with
`profit > 0` / `profit < 0` of *any* status; the inequality
`winningTrades + losingTrades ≤ closedTrades` holds provided every trade
with non-zero stored profit is CLOSED. -/
theorem C4_amended (ts : List Trade)
    (h : ∀ t ∈ ts, t.profit ≠ 0 → t.status = .CLOSED) :
    (getTradeStats ts).winningTrades + (getTradeStats ts).losingTrades ≤
      (getTradeStats ts).closedTrades := by
  cases ts with
  | nil => simp [getTradeStats]
  | cons t rest => exact countP_signs_le_closed (t :: rest) h

/-- Witness instantiating `C4_amended` on a concrete collection. -/
theorem C4_witness :
    (getTradeStats c4wList).winningTrades + (getTradeStats c4wList).losingTrades ≤
      (getTradeStats c4wList).closedTrades :=
  C4_amended c4wList (by decide)

/-! ## C5 — the denominator of averageProfit -/

/-- C5 is false as stated: `averageProfit` averages profit over every
matched trade, so with one closed trade (profit 10) and one open trade
(profit 0) it is 5, while the claimed totalProfit / closedTrades is 10. -/
theorem C5_counterexample :
    (getTradeStats c5List).averageProfit = 5 ∧
    (getTradeStats c5List).totalProfit / ((getTradeStats c5List).closedTrades : ℚ) = 10 ∧
    (5 : ℚ) ≠ 10 := by
  refine ⟨?_, ?_, by norm_num⟩
  · norm_num [getTradeStats, c5List, exTrade]
  · rw [show (getTradeStats c5List).totalProfit = 10 from by
          norm_num [getTradeStats, c5List, exTrade],
        show (getTradeStats c5List).closedTrades = 1 from by decide]
    norm_num

/-- C5 (amended): `averageProfit` equals `totalProfit` divided by the count
of *all* trades in scope (any status), and is 0 when there are no trades
at all. -/
theorem C5_amended (ts : List Trade) :
    (getTradeStats ts).averageProfit =
      if (getTradeStats ts).totalTrades = 0 then 0
      else (getTradeStats ts).totalProfit / ((getTradeStats ts).totalTrades : ℚ) := by
  cases ts with
  | nil => simp [getTradeStats]
  | cons t rest => simp [getTradeStats]

/-! ## C6 — winRate range -/

/-- C6 is false as stated: with one CLOSED and one OPEN trade both at
profit 5, `winningTrades = 2` but `closedTrades = 1`, so the reported
winRate is 200, outside [0, 100]. -/
theorem C6_counterexample :
    statsWinRate c6List = 200 ∧ ¬(statsWinRate c6List ≤ 100) := by
  have h : statsWinRate c6List = 200 := by
    simp [statsWinRate, getTradeStats, c6List, exTrade, List.countP, List.countP.go]
    norm_num
  exact ⟨h, by rw [h]; norm_num⟩

/-- C6 (amended): the winRate is exactly 0 when there are no closed trades
(unconditionally), and it lies in [0, 100] provided every trade with
positive stored profit is CLOSED (the winning count ranges over all
statuses). -/
theorem C6_amended (ts : List Trade) :
    ((getTradeStats ts).closedTrades = 0 → statsWinRate ts = 0) ∧
    ((∀ t ∈ ts, 0 < t.profit → t.status = .CLOSED) →
      0 ≤ statsWinRate ts ∧ statsWinRate ts ≤ 100) := by
  constructor
  · intro h0
    simp [statsWinRate, h0]
  · intro hyp
    have hwc : (getTradeStats ts).winningTrades ≤ (getTradeStats ts).closedTrades := by
      cases ts with
      | nil => simp [getTradeStats]
      | cons t rest =>
        simp only [getTradeStats]
        exact countP_pos_le_closed (t :: rest) hyp
    unfold statsWinRate
    by_cases hc : 0 < (getTradeStats ts).closedTrades
    · rw [if_pos hc]
      have hcq : (0 : ℚ) < ((getTradeStats ts).closedTrades : ℚ) := by
        exact_mod_cast hc
      constructor
      · positivity
      · have h1 : ((getTradeStats ts).winningTrades : ℚ) /
            ((getTradeStats ts).closedTrades : ℚ) ≤ 1 :=
          (div_le_one hcq).2 (by exact_mod_cast hwc)
        calc ((getTradeStats ts).winningTrades : ℚ) /
              ((getTradeStats ts).closedTrades : ℚ) * 100
            ≤ 1 * 100 := by
              exact mul_le_mul_of_nonneg_right h1 (by norm_num)
          _ = 100 := by norm_num
    · rw [if_neg hc]
      norm_num

/-- Witness instantiating `C6_amended` on a concrete collection. -/
theorem C6_witness : 0 ≤ statsWinRate c6wList ∧ statsWinRate c6wList ≤ 100 :=
  (C6_amended c6wList).2 (by decide)

/-! ## C1 — profitFactor is derived from biggestLoss × count -/

/-- C1: the code computes
`Math.abs(totalProfit / (biggestLoss * losingTrades))` — on that scenario
`|75 / ((−40)·2)| = 0.9375`, reported as 0.94 after toFixed(2) — whereas
the claimed sum-of-winners over |sum-of-losers| is `125 / 50 = 2.5`.  The
first conjunct evaluates the code, the second the claimed definition on
the same collection, and they differ. -/
theorem C1_profitFactor_defect :
    (reportSummary c1List).profitFactor = .fin (47 / 50) ∧
    ((c1List.filter (fun t => 0 < t.profit)).map (·.profit)).sum /
      |((c1List.filter (fun t => t.profit < 0)).map (·.profit)).sum| = 5 / 2 ∧
    (47 : ℚ) / 50 ≠ 5 / 2 := by
  refine ⟨?_, ?_, by norm_num⟩
  · have hfl : ⌊((15 : ℚ) / 16 * 100 + 1 / 2)⌋ = 94 := by
      rw [Int.floor_eq_iff]
      norm_num
    simp [reportSummary, overallFacet, reportProfitFactor, jsAbs, jsDiv, toFixed2,
          c1List, exTrade, List.countP_cons]
    norm_num [round_eq, abs_of_pos, hfl]
  · norm_num [c1List, exTrade, abs_of_neg]

/-! ## C9 — degenerate domains in the report summary -/

/-- C9: on the empty collection `getTradeStats` does return the all-zero
default object, but the generateReport summary does not: the spread of the
empty `overall` document leaves `totalTrades`, `averageProfit` (and the
other aggregate fields) absent, and
`netProfit = undefined - undefined` evaluates to `NaN`.  `winRate`,
`profitFactor` and `roi` do fall back to 0. -/
theorem C9_empty_summary :
    (reportSummary []).netProfit = .nan ∧
    (reportSummary []).totalTrades = none ∧
    (reportSummary []).averageProfit = none ∧
    (reportSummary []).winRate = .fin 0 ∧
    (reportSummary []).profitFactor = .fin 0 ∧
    (reportSummary []).roi = .fin 0 ∧
    getTradeStats [] =
      { totalTrades := 0, openTrades := 0, closedTrades := 0
        winningTrades := 0, losingTrades := 0, totalProfit := 0
        averageProfit := 0, biggestWin := 0, biggestLoss := 0 } ∧
    statsWinRate [] = 0 := by
  refine ⟨rfl, rfl, rfl, ?_, ?_, ?_, rfl, by simp [statsWinRate, getTradeStats]⟩
  all_goals
    simp [reportSummary, overallFacet, reportWinRate, reportProfitFactor, reportRoi,
          toFixed2]

/-! ## C2 — the profit formula of the save hook -/

/-- C2 is false as stated: the hook guards on `this.exitPrice` (truthiness),
so a CLOSED BUY trade with `exitPrice = 0`, entry 10 × 1, keeps its stored
profit 0 although the claimed formula gives −10. -/
theorem C2_counterexample :
    c2List.status = .CLOSED ∧ c2List.exitPrice = some 0 ∧
    (preSave true c2List).profit = 0 ∧
    ((0 : ℚ) - c2List.entryPrice) * c2List.quantity - c2List.commission - c2List.fees
      = -10 ∧
    (0 : ℚ) ≠ -10 := by
  refine ⟨rfl, rfl, ?_, by norm_num [c2List], by norm_num⟩
  norm_num [preSave, c2List]

/-- C2 (amended): for every trade with status CLOSED and a *non-zero* exit
price (the truthiness guard of the save hook), saving with
`autoCalculateProfit = true` stores
`profit = (exitPrice − entryPrice)·quantity − commission − fees` for BUY
and `(entryPrice − exitPrice)·quantity − commission − fees` for SELL. -/
theorem C2_amended (t : Trade) (p : ℚ) (hcl : t.status = .CLOSED)
    (hep : t.exitPrice = some p) (hp : p ≠ 0) :
    (preSave true t).profit =
      if t.type = .BUY then
        (p - t.entryPrice) * t.quantity - t.commission - t.fees
      else
        (t.entryPrice - p) * t.quantity - t.commission - t.fees := by
  have hbody : (preSave true t).profit =
      if t.type = .BUY then
        p * t.quantity - t.entryPrice * t.quantity - (t.commission + t.fees)
      else
        t.entryPrice * t.quantity - p * t.quantity - (t.commission + t.fees) := by
    simp only [preSave, hep]
    rw [if_pos ⟨hcl, hp, trivial⟩]
  rw [hbody]
  by_cases hty : t.type = .BUY
  · rw [if_pos hty, if_pos hty]
    ring
  · rw [if_neg hty, if_neg hty]
    ring

/-- Witness instantiating `C2_amended` on the scenario trade from the spec. -/
theorem C2_witness :
    (preSave true c2wTrade).profit =
      if c2wTrade.type = .BUY then
        (635/4 - c2wTrade.entryPrice) * c2wTrade.quantity
          - c2wTrade.commission - c2wTrade.fees
      else
        (c2wTrade.entryPrice - 635/4) * c2wTrade.quantity
          - c2wTrade.commission - c2wTrade.fees :=
  C2_amended c2wTrade (635/4) rfl rfl (by norm_num)

/-! ## C3 — profitPercentage at zero entry notional -/

/-- C3 is false as stated: `(this.profit / entryValue) * 100` has no guard,
so a closed trade with entry notional 0 and profit 5 stores
`profitPercentage = Infinity`, not 0. -/
theorem C3_counterexample :
    c3Trade.entryPrice * c3Trade.quantity = 0 ∧
    (preSave true c3Trade).profitPercentage = .inf ∧
    JsNum.inf ≠ .fin 0 := by
  refine ⟨by norm_num [c3Trade], ?_, by simp⟩
  norm_num [preSave, c3Trade, jsDiv, jsMul100]

/-- C3 (amended): whenever the hook actually recomputes (CLOSED status,
non-zero exit price, `autoCalculateProfit = true`) and the entry notional
is 0, the stored `profitPercentage` is a non-finite IEEE sentinel
(`Infinity`, `-Infinity` or `NaN`) — in particular never the finite 0 the
claim requires. -/
theorem C3_amended (t : Trade) (p : ℚ) (hcl : t.status = .CLOSED)
    (hep : t.exitPrice = some p) (hp : p ≠ 0)
    (hev : t.entryPrice * t.quantity = 0) :
    ∀ q : ℚ, (preSave true t).profitPercentage ≠ .fin q := by
  have hbody : (preSave true t).profitPercentage =
      jsMul100 (jsDiv
        (if t.type = .BUY then
          p * t.quantity - t.entryPrice * t.quantity - (t.commission + t.fees)
        else
          t.entryPrice * t.quantity - p * t.quantity - (t.commission + t.fees))
        (t.entryPrice * t.quantity)) := by
    simp only [preSave, hep]
    rw [if_pos ⟨hcl, hp, trivial⟩]
  have hzero : ∀ (a r : ℚ), jsMul100 (jsDiv a 0) ≠ .fin r := by
    intro a r
    unfold jsDiv
    rw [if_pos rfl]
    split
    · simp [jsMul100]
    · split
      all_goals simp [jsMul100]
  intro q
  rw [hbody, hev]
  exact hzero _ q

/-- Witness instantiating `C3_amended` on `c3Trade`. -/
theorem C3_witness : (preSave true c3Trade).profitPercentage ≠ .fin 0 :=
  C3_amended c3Trade 5 rfl rfl (by norm_num) (by norm_num [c3Trade]) 0

/-! ## C10 — close operations never touch the stored profit -/

/-- Pointwise frame fact for the `updateMany` document of
`bulkCloseTrades`. -/
lemma bulkUpdate_preserves_profit (ids : List ℕ) (p : ℚ) (d : Option ℤ)
    (now : ℤ) (t : Trade) :
    (if t.id ∈ ids ∧ t.status = .OPEN then
      { t with exitPrice := some p, exitDate := some (d.getD now),
               status := .CLOSED }
     else t).profit = t.profit ∧
    (if t.id ∈ ids ∧ t.status = .OPEN then
      { t with exitPrice := some p, exitDate := some (d.getD now),
               status := .CLOSED }
     else t).profitPercentage = t.profitPercentage := by
  split
  all_goals exact ⟨rfl, rfl⟩

/-- C10: both close operations are query updates (`findOneAndUpdate`,
`updateMany`), which do not run the document pre-save middleware; they
set exit fields and status but leave the stored `profit` and
`profitPercentage` at their prior values, whatever the value of the owner
`autoCalculateProfit` setting. -/
theorem C10_close_frame :
    (∀ (t : Trade) (p : ℚ) (d : Option ℤ) (n : Option String) (now : ℤ)
        (t' : Trade), closeTrade t p d n now = some t' →
      t'.profit = t.profit ∧ t'.profitPercentage = t.profitPercentage ∧
      t'.status = .CLOSED ∧ t'.exitPrice = some p) ∧
    (∀ (ids : List ℕ) (p : ℚ) (d : Option ℤ) (now : ℤ) (ts ts' : List Trade),
        bulkCloseTrades ids p d now ts = some ts' →
      ts'.map (·.profit) = ts.map (·.profit) ∧
      ts'.map (·.profitPercentage) = ts.map (·.profitPercentage)) := by
  constructor
  · intro t p d n now t' h
    unfold closeTrade at h
    split_ifs at h
    injection h with h
    subst h
    exact ⟨rfl, rfl, rfl, rfl⟩
  · intro ids p d now ts ts' h
    unfold bulkCloseTrades at h
    split_ifs at h
    injection h with h
    subst h
    constructor
    · rw [List.map_map]
      exact List.map_congr_left
        (fun t _ => (bulkUpdate_preserves_profit ids p d now t).1)
    · rw [List.map_map]
      exact List.map_congr_left
        (fun t _ => (bulkUpdate_preserves_profit ids p d now t).2)

/-- Witness instantiating `C10_close_frame` on a concrete open trade. -/
theorem C10_witness :
    c10Closed.profit = c10Trade.profit ∧
    c10Closed.profitPercentage = c10Trade.profitPercentage ∧
    c10Closed.status = .CLOSED ∧ c10Closed.exitPrice = some 5 :=
  C10_close_frame.1 c10Trade 5 none none 0 c10Closed
    (by norm_num [closeTrade, c10Trade, c10Closed])

/-! ## C7 — partition conservation of the bySymbol facet -/

/-- Inserting into the descending sort is a permutation. -/
lemma insertDesc_perm (x : String × ℚ) (l : List (String × ℚ)) :
    List.Perm (insertDesc x l) (x :: l) := by
  induction l with
  | nil => rfl
  | cons y ys ih =>
    unfold insertDesc
    split
    · rfl
    · exact (ih.cons y).trans (List.Perm.swap x y ys)

/-- The descending sort permutes its input. -/
lemma sortDesc_perm (l : List (String × ℚ)) : List.Perm (sortDesc l) l := by
  induction l with
  | nil => rfl
  | cons x xs ih =>
    exact (insertDesc_perm x (sortDesc xs)).trans (ih.cons x)

/-- Splitting a profit sum at a decidable predicate. -/
lemma sum_profit_filter_split (l : List Trade) (p : Trade → Bool) :
    ((l.filter p).map (·.profit)).sum +
      ((l.filter (fun t => !p t)).map (·.profit)).sum =
    (l.map (·.profit)).sum := by
  induction l with
  | nil => simp
  | cons t rest ih =>
    by_cases hp : p t
    · rw [List.filter_cons_of_pos hp,
          List.filter_cons_of_neg (by simp [hp])]
      simp only [List.map_cons, List.sum_cons]
      rw [← ih]
      ring
    · rw [List.filter_cons_of_neg (by simp [hp]),
          List.filter_cons_of_pos (by simp [hp])]
      simp only [List.map_cons, List.sum_cons]
      rw [← ih]
      ring

/-- For a symbol not equal to `s`, the group profit can be computed on the
trades left after removing symbol-`s` trades. -/
lemma symProfit_filter_ne (l : List Trade) (s s' : String) (hne : s' ≠ s) :
    symProfit l s' = symProfit (l.filter (fun t => !(t.symbol = s : Bool))) s' := by
  unfold symProfit
  rw [List.filter_filter]
  have heq : (l.filter (fun a => (a.symbol = s' : Bool) && !(a.symbol = s : Bool))) =
      l.filter (fun t => (t.symbol = s' : Bool)) := by
    apply List.filter_congr
    intro t _
    by_cases hts : t.symbol = s'
    · simp [hts, hne]
    · simp [hts]
  rw [heq]

/-- Partition law: summing the per-symbol group profits over any duplicate-
free symbol cover of the collection yields the total profit of the collection. -/
lemma sum_symProfit_cover (ks : List String) :
    ∀ l : List Trade, ks.Nodup → (∀ t ∈ l, t.symbol ∈ ks) →
      (ks.map (fun s => symProfit l s)).sum = (l.map (·.profit)).sum := by
  induction ks with
  | nil =>
    intro l _ hcov
    have : l = [] := by
      cases l with
      | nil => rfl
      | cons t rest => exact absurd (hcov t (List.mem_cons_self t rest)) (List.not_mem_nil _)
    rw [this]
    simp
  | cons s ks ih =>
    intro l hnd hcov
    have hnd' : ks.Nodup := hnd.of_cons
    have hs : s ∉ ks := (List.nodup_cons.1 hnd).1
    set l' := l.filter (fun t => !(t.symbol = s : Bool)) with hl'
    have hmap : ks.map (fun s' => symProfit l s') = ks.map (fun s' => symProfit l' s') := by
      apply List.map_congr_left
      intro s' hs'
      exact symProfit_filter_ne l s s' (fun h => hs (h ▸ hs'))
    have hcov' : ∀ t ∈ l', t.symbol ∈ ks := by
      intro t ht
      have hmem := List.mem_of_mem_filter ht
      have hprop := List.of_mem_filter ht
      simp only [Bool.not_eq_true', decide_eq_false_iff_not] at hprop
      rcases List.mem_cons.1 (hcov t hmem) with h | h
      · exact absurd h hprop
      · exact h
    have hsplit := sum_profit_filter_split l (fun t => (t.symbol = s : Bool))
    simp only [List.map_cons, List.sum_cons]
    rw [hmap, ih l' hnd' hcov']
    have hsym : symProfit l s = ((l.filter (fun t => (t.symbol = s : Bool))).map (·.profit)).sum := rfl
    rw [← hsym, ← hl'] at hsplit
    rw [← hsplit]

/-- C7 (amended): the partition conservation law holds whenever the
collection has at most ten distinct symbols; the `$limit: 10` stage then
keeps every group, and the group sums add up to the ungrouped total. -/
theorem C7_amended (ts : List Trade) (h : (symbolsOf ts).length ≤ 10) :
    ((bySymbolFacet ts).map Prod.snd).sum = (ts.map (·.profit)).sum := by
  have hperm : List.Perm (sortDesc (bySymbolGroups ts)) (bySymbolGroups ts) :=
    sortDesc_perm (bySymbolGroups ts)
  have hlen : (sortDesc (bySymbolGroups ts)).length ≤ 10 := by
    rw [hperm.length_eq]
    unfold bySymbolGroups
    rw [List.length_map]
    exact h
  unfold bySymbolFacet
  rw [List.take_of_length_le hlen]
  rw [(hperm.map Prod.snd).sum_eq]
  unfold bySymbolGroups
  rw [List.map_map]
  have : (Prod.snd ∘ fun s => (s, symProfit ts s)) = fun s => symProfit ts s := rfl
  rw [this]
  exact sum_symProfit_cover (symbolsOf ts) ts (List.nodup_dedup _)
    (fun t ht => List.mem_dedup.2 (List.mem_map_of_mem (·.symbol) ht))

/-- C7 is false as stated: with eleven distinct symbols the facet
`$limit: 10` drops one group, so the group sums add to 10 while the
ungrouped total profit is 11. -/
theorem C7_counterexample :
    ((bySymbolFacet c7List).map Prod.snd).sum = 10 ∧
    (c7List.map (·.profit)).sum = 11 ∧
    (10 : ℚ) ≠ 11 := by
  have hsy : symbolsOf c7List = c7List.map (·.symbol) :=
    List.dedup_eq_self.2 (by decide)
  refine ⟨?_, ?_, by norm_num⟩
  · simp [bySymbolFacet, bySymbolGroups, hsy, symProfit, sortDesc, insertDesc,
          c7List, exTrade]
    norm_num
  · simp [c7List, exTrade]
    norm_num

/-- Witness instantiating `C7_amended` on a two-symbol collection. -/
theorem C7_witness :
    ((bySymbolFacet c7wList).map Prod.snd).sum = (c7wList.map (·.profit)).sum :=
  C7_amended c7wList (by decide)

/-! ## C8 — CSV export round-trip -/

/-- A separator-free field splits to itself. -/
lemma splitChars_no_sep (sep : Char) (f : List Char) (hf : sep ∉ f) :
    splitChars sep f = [f] := by
  induction f with
  | nil => rfl
  | cons c cs ih =>
    have hc : c ≠ sep := fun h => hf (h ▸ List.mem_cons_self c cs)
    have hcs : sep ∉ cs := fun h => hf (List.mem_cons_of_mem c h)
    rw [splitChars, if_neg hc, ih hcs, consFirst]

/-- Splitting past a separator-free prefix peels exactly one field. -/
lemma splitChars_append_sep (sep : Char) (f l : List Char) (hf : sep ∉ f) :
    splitChars sep (f ++ sep :: l) = f :: splitChars sep l := by
  induction f with
  | nil =>
    rw [List.nil_append, splitChars, if_pos rfl]
  | cons c cs ih =>
    have hc : c ≠ sep := fun h => hf (h ▸ List.mem_cons_self c cs)
    have hcs : sep ∉ cs := fun h => hf (List.mem_cons_of_mem c h)
    rw [List.cons_append, splitChars, if_neg hc, ih hcs, consFirst]

/-- Splitting inverts joining when no field contains the separator. -/
lemma splitChars_intercalate (sep : Char) (fs : List (List Char)) (hne : fs ≠ [])
    (hcl : ∀ f ∈ fs, sep ∉ f) :
    splitChars sep (intercalateChars sep fs) = fs := by
  induction fs with
  | nil => exact absurd rfl hne
  | cons f fs ih =>
    cases fs with
    | nil => exact splitChars_no_sep sep f (hcl f (List.mem_cons_self f []))
    | cons g gs =>
      unfold intercalateChars
      rw [splitChars_append_sep sep f _ (hcl f (List.mem_cons_self f (g :: gs)))]
      rw [ih (by simp) (fun x hx => hcl x (List.mem_cons_of_mem f hx))]

/-- Reading a digit character back inverts digitChar on decimal digits. -/
lemma digitVal_digitChar (d : ℕ) (hd : d < 10) : digitVal? (digitChar d) = some d := by
  interval_cases d <;> rfl

/-- Digit characters are not the field separator. -/
lemma digitChar_ne_comma (d : ℕ) (hd : d < 10) : digitChar d ≠ ',' := by
  interval_cases d <;> decide

/-- Digit characters are not the sign character. -/
lemma digitChar_ne_dash (d : ℕ) (hd : d < 10) : digitChar d ≠ '-' := by
  interval_cases d <;> decide

/-- Every character the fuelled renderer emits is a decimal digit. -/
lemma mem_natRenderAux (fuel : ℕ) :
    ∀ n c, c ∈ natRenderAux fuel n → ∃ d, d < 10 ∧ c = digitChar d := by
  induction fuel with
  | zero =>
    intro n c hc
    simp [natRenderAux] at hc
  | succ fuel ih =>
    intro n c hc
    cases n with
    | zero => simp [natRenderAux] at hc
    | succ m =>
      unfold natRenderAux at hc
      rcases List.mem_append.1 hc with h | h
      · exact ih _ c h
      · rw [List.mem_singleton] at h
        exact ⟨(m + 1) % 10, Nat.mod_lt _ (by norm_num), h⟩

/-- The digit-list parser extends across an appended digit character. -/
lemma digitsParse_append (cs : List Char) (d : ℕ) (hd : d < 10) :
    ∀ ds, digitsParse cs = some ds →
      digitsParse (cs ++ [digitChar d]) = some (ds ++ [d]) := by
  induction cs with
  | nil =>
    intro ds h
    simp [digitsParse] at h
    subst h
    simp [digitsParse, digitVal_digitChar d hd]
  | cons c cs ih =>
    intro ds h
    rw [digitsParse] at h
    cases hv : digitVal? c with
    | none => rw [hv] at h; simp at h
    | some v =>
      rw [hv] at h
      cases hp : digitsParse cs with
      | none => rw [hp] at h; simp at h
      | some ds' =>
        rw [hp] at h
        simp at h
        rw [List.cons_append, digitsParse, hv, ih ds' hp]
        simp [← h]

/-- The fuelled renderer emits a digit string whose left fold recovers the
number, for sufficient fuel. -/
lemma digitsParse_natRenderAux (fuel : ℕ) :
    ∀ n, n ≤ fuel → ∃ ds, digitsParse (natRenderAux fuel n) = some ds ∧
      ds.foldl (fun a d => a * 10 + d) 0 = n := by
  induction fuel with
  | zero =>
    intro n hn
    interval_cases n
    exact ⟨[], rfl, rfl⟩
  | succ fuel ih =>
    intro n hn
    cases n with
    | zero => exact ⟨[], rfl, rfl⟩
    | succ m =>
      have hq : (m + 1) / 10 ≤ fuel := by
        have := Nat.div_lt_self (Nat.succ_pos m) (by norm_num : 1 < 10)
        omega
      obtain ⟨ds, hds, hval⟩ := ih ((m + 1) / 10) hq
      have hr : (m + 1) % 10 < 10 := Nat.mod_lt _ (by norm_num)
      refine ⟨ds ++ [(m + 1) % 10], ?_, ?_⟩
      · unfold natRenderAux
        exact digitsParse_append _ _ hr ds hds
      · rw [List.foldl_append, List.foldl_cons, List.foldl_nil, hval]
        omega

/-- A positive number renders to a non-empty digit string. -/
lemma natRenderAux_ne_nil (fuel n : ℕ) (h0 : 0 < n) (hn : n ≤ fuel) :
    natRenderAux fuel n ≠ [] := by
  cases fuel with
  | zero => omega
  | succ fuel =>
    cases n with
    | zero => omega
    | succ m =>
      unfold natRenderAux
      simp

/-- Round-trip for non-negative integers: parsing the JS base-10 rendering
recovers the number. -/
lemma natParse_natRender (n : ℕ) : natParse (natRender n) = some n := by
  by_cases h0 : n = 0
  · subst h0
    rfl
  · unfold natRender
    rw [if_neg h0]
    obtain ⟨ds, hds, hval⟩ := digitsParse_natRenderAux n n (le_refl n)
    unfold natParse
    rw [if_neg (natRenderAux_ne_nil n n (Nat.pos_of_ne_zero h0) (le_refl n)), hds]
    simp [hval]

/-- Rendered naturals never contain the field separator. -/
lemma comma_not_mem_natRender (n : ℕ) : ',' ∉ natRender n := by
  unfold natRender
  split
  · decide
  · intro hc
    obtain ⟨d, hd, hcd⟩ := mem_natRenderAux n n ',' hc
    exact digitChar_ne_comma d hd hcd.symm

/-- Rendered naturals never contain the sign character. -/
lemma dash_not_mem_natRender (n : ℕ) : '-' ∉ natRender n := by
  unfold natRender
  split
  · decide
  · intro hc
    obtain ⟨d, hd, hcd⟩ := mem_natRenderAux n n '-' hc
    exact digitChar_ne_dash d hd hcd.symm

/-- A rendered natural is never the empty string. -/
lemma natRender_ne_nil (n : ℕ) : natRender n ≠ [] := by
  unfold natRender
  split
  · simp
  · rename_i h0
    exact natRenderAux_ne_nil n n (Nat.pos_of_ne_zero h0) (le_refl n)

/-- Round-trip for integers: parsing the JS rendering recovers the value. -/
lemma intParse_intRender (z : ℤ) : intParse (intRender z) = some z := by
  unfold intRender
  split
  · rename_i hz
    rw [intParse, if_pos rfl, natParse_natRender]
    exact congrArg some (show -((z.natAbs : ℤ)) = z by omega)
  · rename_i hz
    cases hnr : natRender z.natAbs with
    | nil => exact absurd hnr (natRender_ne_nil _)
    | cons c cs =>
      have hcd : c ≠ '-' := by
        intro h
        exact dash_not_mem_natRender z.natAbs
          (h ▸ (hnr ▸ List.mem_cons_self c cs))
      rw [intParse, if_neg hcd, ← hnr, natParse_natRender]
      exact congrArg some (show ((z.natAbs : ℤ)) = z by omega)

/-- Rendered integers never contain the field separator. -/
lemma comma_not_mem_intRender (z : ℤ) : ',' ∉ intRender z := by
  unfold intRender
  split
  · intro hc
    rcases List.mem_cons.1 hc with h | h
    · exact absurd h.symm (by decide)
    · exact comma_not_mem_natRender _ h
  · exact comma_not_mem_natRender _

/-- A rendered integer is never the empty string. -/
lemma intRender_ne_nil (z : ℤ) : intRender z ≠ [] := by
  unfold intRender
  split
  · simp
  · exact natRender_ne_nil _

/-- The comma substitution leaves no separators in the notes field. -/
lemma comma_not_mem_stripCommas (s : String) : ',' ∉ (stripCommas s).data := by
  unfold stripCommas
  intro hc
  rcases List.mem_map.1 hc with ⟨c, _, hcc⟩
  by_cases h : c = ','
  · rw [if_pos h] at hcc
    exact absurd hcc.symm (by decide)
  · rw [if_neg h] at hcc
    exact h (hcc ▸ rfl)

/-- The `Type` column round-trips. -/
lemma parseType_roundtrip (ty : TType) :
    parseType (String.mk (typeStr ty).data) = some ty := by
  cases ty <;> rfl

/-- The `Status` column round-trips. -/
lemma parseStatus_roundtrip (st : TStatus) :
    parseStatus (String.mk (statusStr st).data) = some st := by
  cases st <;> rfl

/-- The `Exit Price` column round-trips for prices other than `some 0`
(which the exporter renders as the empty string). -/
lemma parseExit_roundtrip (xp : Option ℤ) (h : xp ≠ some 0) :
    parseExit (exitPriceField xp) = some xp := by
  cases xp with
  | none => rfl
  | some z =>
    have hz : z ≠ 0 := fun h0 => h (by rw [h0])
    simp only [exitPriceField]
    rw [if_neg hz]
    unfold parseExit
    rw [if_neg (intRender_ne_nil z), intParse_intRender]
    rfl

/-- The rendered trade type contains no separator. -/
lemma comma_not_mem_typeStr (ty : TType) : ',' ∉ (typeStr ty).data := by
  cases ty <;> decide

/-- The rendered trade status contains no separator. -/
lemma comma_not_mem_statusStr (st : TStatus) : ',' ∉ (statusStr st).data := by
  cases st <;> decide

/-- The exit-price field contains no separator. -/
lemma comma_not_mem_exitPriceField (xp : Option ℤ) : ',' ∉ exitPriceField xp := by
  cases xp with
  | none => simp [exitPriceField]
  | some z =>
    simp only [exitPriceField]
    split
    · simp
    · exact comma_not_mem_intRender z

/-- C8 (amended): the round-trip reproduces symbol, side, entryPrice,
exitPrice, quantity and status for every trade whose symbol, strategy and
date fields are comma-free — the exporter substitutes separators only in
`notes`, not in other free text — and whose exit price is not the value 0,
which the truthiness rendering makes identical to an absent one. -/
theorem C8_amended (t : ExportRow)
    (hsym : ',' ∉ t.symbol.data) (hstr : ',' ∉ t.strategy.data)
    (hed : ',' ∉ t.entryDate.data) (hxd : ',' ∉ (t.exitDate.getD "").data)
    (hxp : t.exitPrice ≠ some 0) :
    parseRow (renderRow t) =
      some { symbol := t.symbol, type := t.type, entryPrice := t.entryPrice
             exitPrice := t.exitPrice, quantity := t.quantity
             status := t.status } := by
  have hcl : ∀ f ∈ [ t.symbol.data, (typeStr t.type).data, t.strategy.data,
      t.entryDate.data, intRender t.entryPrice, (t.exitDate.getD "").data,
      exitPriceField t.exitPrice, intRender t.quantity, intRender t.profit,
      (statusStr t.status).data, (stripCommas t.notes).data ], ',' ∉ f := by
    intro f hf
    simp only [List.mem_cons, List.not_mem_nil, or_false] at hf
    rcases hf with rfl | rfl | rfl | rfl | rfl | rfl | rfl | rfl | rfl | rfl | rfl
    · exact hsym
    · exact comma_not_mem_typeStr t.type
    · exact hstr
    · exact hed
    · exact comma_not_mem_intRender t.entryPrice
    · exact hxd
    · exact comma_not_mem_exitPriceField t.exitPrice
    · exact comma_not_mem_intRender t.quantity
    · exact comma_not_mem_intRender t.profit
    · exact comma_not_mem_statusStr t.status
    · exact comma_not_mem_stripCommas t.notes
  have hsplit := splitChars_intercalate ','
    [ t.symbol.data, (typeStr t.type).data, t.strategy.data,
      t.entryDate.data, intRender t.entryPrice, (t.exitDate.getD "").data,
      exitPriceField t.exitPrice, intRender t.quantity, intRender t.profit,
      (statusStr t.status).data, (stripCommas t.notes).data ]
    (by simp) hcl
  unfold parseRow renderRow
  rw [hsplit]
  simp only [parseType_roundtrip, parseStatus_roundtrip,
             parseExit_roundtrip t.exitPrice hxp, intParse_intRender]

/-- C8 is false as stated: a trade with `exitPrice = 0` renders the exit
price column as the empty string (exitPrice is falsy), so parsing the
row back yields an *absent* exit price, not 0. -/
theorem C8_counterexample :
    c8Trade.exitPrice = some 0 ∧
    parseRow (renderRow c8Trade) =
      some { symbol := "AAPL", type := .BUY, entryPrice := 10
             exitPrice := none, quantity := 1, status := .CLOSED } ∧
    (none : Option ℤ) ≠ some 0 :=
  ⟨rfl, by decide, by decide⟩

/-- Witness instantiating `C8_amended` on a concrete export row. -/
theorem C8_witness :
    parseRow (renderRow c8wTrade) =
      some { symbol := c8wTrade.symbol, type := c8wTrade.type
             entryPrice := c8wTrade.entryPrice, exitPrice := c8wTrade.exitPrice
             quantity := c8wTrade.quantity, status := c8wTrade.status } :=
  C8_amended c8wTrade (by decide) (by decide) (by decide) (by decide) (by decide)
